import Mathlib

/-!
Verification of the `asyncgui` core (`asyncgui/_core.py`) against its
natural-language specification.

The Python module implements a scheduler-less cooperative concurrency core:

* `Task` wraps a coroutine in a supervisor coroutine (`Task._wrapper`) that
  tracks the lifecycle state `CREATED → STARTED → {DONE | CANCELLED}`,
  captures the result or exception, and fires a completion `Event`.
* `Task.cancel` closes the root coroutine when the task is "cancellable"
  (`_cancel_protection == 0` and the coroutine is not currently running).
* `cancel_protection` increments / decrements `_cancel_protection` around a
  block, deferring forced closure.
* `Event` is a one-shot broadcast primitive: `set` stores the payload and
  drains the waiter list, `wait` suspends until fired (resuming immediately
  if already fired), `add_callback` registers a plain callback.

The embedding below is a small-step operational semantics.  A suspendable
computation (the argument of `Task(...)`) is a deep-embedded program `Aw`;
each suspension point yields a registration request exactly as in the
suspension protocol of the source (`coro.send(...)` returns a function that
is applied to the step callback).  Driver-level operations (`start`,
`cancel`, `Event.set`, ...) are total functions on a `World` carrying the
single task, a heap of user events and a log of external-callback
invocations.  Re-entrant resumption (an `Event.set` that resumes the task,
which may immediately finish and fire its completion event, ...) is handled
with an explicit fuel parameter; running out of fuel leaves the world
unchanged, so every theorem about a concrete scenario simply supplies
enough fuel.

Fidelity notes, tied to the source:

* Python's `coro.close()` on a `CORO_CREATED` coroutine marks it closed
  without ever running its body; on a suspended coroutine it throws
  `GeneratorExit` at the suspension point and swallows it if it propagates
  out.  Both behaviors are modelled in the `close` job of `exec`.
* `GeneratorExit` is a `BaseException` but not an `Exception`, so in
  `Task._wrapper` it is caught by the bare `except:` clause, never stored
  in `_exception`, and always re-raised; `wrapperDispatch` reproduces the
  two `except` clauses verbatim.
* `Task._is_cancellable` also checks `getcoroutinestate(...) != CORO_RUNNING`.
  In this model every driver operation is atomic and the deep-embedded
  programs cannot call `cancel` or `Event.set` themselves, so the root
  coroutine is never `CORO_RUNNING` at any point where `_is_cancellable`
  is consulted; the check therefore reduces to `_cancel_protection == 0`.
* Entering `cancel_protection()` performs a `get_step_coro` style
  immediate-resume suspension before incrementing the counter; since that
  resume happens synchronously inside the same driver step, the model
  increments the counter directly.
* The ghost fields `stateTrace` (every value the `_state` attribute takes,
  in order) and `compFireCount` (number of times the completion event
  actually fired) are instrumentation only: no definition branches on them.
-/

namespace Asyncgui

/-- Payload values: stands for the `(args, kwargs)` tuple that the suspension
protocol threads around. -/
abbrev Val := Nat

/-- Mirror of `TaskState` (`_core.py`, an `enum.Flag`); the `ENDED` alias
`CANCELLED | DONE` is the predicate `TaskState.isEnded`. -/
inductive TaskState where
  | created
  | started
  | cancelled
  | done
  deriving DecidableEq, Repr, BEq

/-- Mirror of `TaskState.ENDED = CANCELLED | DONE`. -/
def TaskState.isEnded : TaskState → Bool
  | .cancelled => true
  | .done => true
  | _ => false

/-- Python exception values relevant to the core.  `StopIteration` is not a
value here: it is the control-flow signal "the coroutine finished", which the
semantics models directly.  `userExc` stands for an arbitrary user-defined
`Exception` subclass raised by the wrapped computation. -/
inductive Exc where
  | valueError (msg : String)
  | invalidStateError (msg : String)
  | typeError (msg : String)
  | runtimeError (msg : String)
  | generatorExit
  | userExc (code : Nat)
  deriving DecidableEq, Repr, BEq

/-- Whether the exception is an instance of Python's `Exception` (and hence
caught by `except Exception as e:` in `Task._wrapper`).  `GeneratorExit`
derives from `BaseException` only. -/
def Exc.isException : Exc → Bool
  | .generatorExit => false
  | _ => true

/-- Whether the exception is an `InvalidStateError` (from
`asyncgui.exceptions`). -/
def Exc.isInvalidState : Exc → Bool
  | .invalidStateError _ => true
  | _ => false

/-- A waiter stored in an event's `_step_coro_list`: either the (single)
task's bound `_step_coro` method, or an external callback registered by the
driver through `add_callback`, identified by a number. -/
inductive Waiter where
  | taskStep
  | extCb (id : Nat)
  deriving DecidableEq, Repr, BEq

/-- Mirror of class `Event`: `_flag`, `_value` (which is `None` until the
first `set`), and `_step_coro_list`. -/
structure Ev where
  flag : Bool
  value : Option Val
  waiters : List Waiter
  deriving Repr

/-- A fresh `Event()`. -/
def freshEv : Ev := { flag := false, value := none, waiters := [] }

/-- Mirror of `Event.set`: no-op when already fired, otherwise mark fired,
store the payload, swap out the waiter list and return the captured waiters
(the source then invokes each captured waiter with the payload, in order;
the world-level `exec` performs those invocations). -/
def Ev.set (e : Ev) (v : Val) : Ev × List Waiter :=
  if e.flag then (e, [])
  else ({ flag := true, value := some v, waiters := [] }, e.waiters)

/-- Mirror of `Event.clear`: reset `_flag` only; `_value` and the waiter
list are untouched. -/
def Ev.clear (e : Ev) : Ev := { e with flag := false }

/-- Mirror of `Event.add_callback`: if already fired the callback is invoked
immediately with the stored payload (returned as `some payload`), otherwise
it is appended to the waiter list (returning `none`). -/
def Ev.addCallback (e : Ev) (w : Waiter) : Ev × Option (Option Val) :=
  if e.flag then (e, some e.value)
  else ({ e with waiters := e.waiters ++ [w] }, none)

/-- Deep embedding of the suspendable computations passed to `Task(...)`.
Each constructor is one of the core's suspension points or a terminal step:

* `ret v` — `return v`.
* `raiseE e` — `raise e` (user code raising an exception).
* `sleepForever k` — `await sleep_forever()`, continuing as `k` if ever
  resumed (the registration request ignores the callback, so it never is).
* `waitEv i k` — `await events[i].wait()`; the continuation receives the
  payload (`None`-able, mirroring `Event._value`).
* `protect body k` — `async with cancel_protection(): body`, then `k`
  (the `with` block's value is discarded, as in the source). -/
inductive Aw where
  | ret (v : Val)
  | raiseE (e : Exc)
  | sleepForever (k : Aw)
  | waitEv (eid : Nat) (k : Option Val → Aw)
  | protect (body : Aw) (k : Aw)

/-- A registration request: the function value yielded at a suspension
point, to be applied to the step callback (`coro.send(...)(step_coro)`).

* `noop` — `sleep_forever`'s `lambda step_coro: None`.
* `appendWaiter i` — `Event.wait`'s `self._step_coro_list.append` (event
  not yet fired).
* `immediate` — `Event.wait`'s `lambda step_coro: step_coro()` (event
  already fired; the stored payload was already baked into the
  continuation). -/
inductive RegReq where
  | noop
  | appendWaiter (eid : Nat)
  | immediate

/-- Outcome of advancing the wrapped computation from one resume point to
the next suspension or termination.  `depth` is the value of
`_cancel_protection` after the advance (`protect` scopes entered and
exited during the advance have updated it); `stack` holds the pending
continuations of the `protect` scopes that are still open. -/
inductive RunRes where
  | finished (v : Val) (depth : Nat)
  | raised (e : Exc) (depth : Nat)
  | suspended (reg : RegReq) (k : Option Val → Aw) (stack : List Aw) (depth : Nat)

/-- Advance the computation until it suspends, returns or raises.

* `ret` with an open `protect` frame runs that scope's `finally`
  (decrement the protection counter) and continues with the pending
  continuation.
* `raiseE` unwinds every open `protect` frame (each `finally` decrements
  the counter) and propagates.
* `waitEv` consults the event heap exactly as `Event.wait` consults
  `self._flag`: if fired it yields the immediate-resume registration and a
  continuation that returns the stored `_value`; otherwise it yields the
  append-to-waiter-list registration.
* `protect` increments the counter and pushes the pending continuation.

Fuel bounds the number of internal reductions; `none` means fuel ran out
(never the case in the source, which has no fuel). -/
def runThread : Nat → Aw → List Aw → Nat → List Ev → Option RunRes
  | 0, _, _, _, _ => none
  | fuel + 1, cur, stack, depth, evs =>
    match cur with
    | .ret v =>
      match stack with
      | [] => some (.finished v depth)
      | k :: rest => runThread fuel k rest (depth - 1) evs
    | .raiseE e => some (.raised e (depth - stack.length))
    | .sleepForever k => some (.suspended .noop (fun _ => k) stack depth)
    | .waitEv eid k =>
      let e := evs.getD eid freshEv
      if e.flag then some (.suspended .immediate (fun _ => k e.value) stack depth)
      else some (.suspended (.appendWaiter eid) k stack depth)
    | .protect body k => runThread fuel body (k :: stack) (depth + 1) evs

/-- Runtime status of the root coroutine `Task._wrapper(awaitable)`.
`created` is `CORO_CREATED` (the wrapper body has not run at all),
`suspended` is `CORO_SUSPENDED` at a suspension point inside
`await awaitable`, `closed` is `CORO_CLOSED`.  (`CORO_RUNNING` never occurs
at an operation boundary, see the fidelity notes.) -/
inductive CoroSt where
  | created (body : Aw)
  | suspended (k : Option Val → Aw) (stack : List Aw)
  | closed

/-- Whether the coroutine is closed (`getcoroutinestate(...) == CORO_CLOSED`). -/
def CoroSt.isClosed : CoroSt → Bool
  | .closed => true
  | _ => false

/-- Whether the coroutine is suspended. -/
def CoroSt.isSuspended : CoroSt → Bool
  | .suspended _ _ => true
  | _ => false

/-- Mirror of class `Task`.  `stateTrace` is a ghost trace of every value
taken by `_state` (starting with the initial `CREATED`), and
`compFireCount` is a ghost count of how many times the completion event
`_event` actually fired; neither influences any behavior. -/
structure TaskM where
  uid : Nat
  name : String
  state : TaskState
  result : Option Val
  exception : Option Exc
  suppresses : Bool
  cancelCalled : Bool
  protection : Nat
  coro : CoroSt
  compEv : Ev
  compFireCount : Nat
  stateTrace : List TaskState

/-- Mirror of `Task.__str__`. -/
def TaskM.str (t : TaskM) : String :=
  "Task(uid=" ++ toString t.uid ++ ", name=" ++ t.name ++ ")"

/-- Assignment to `self._state`, recorded in the ghost trace. -/
def TaskM.setState (t : TaskM) (s : TaskState) : TaskM :=
  { t with state := s, stateTrace := t.stateTrace ++ [s] }

/-- Mirror of `Task._is_cancellable`:
`(not self._cancel_protection) and getcoroutinestate(self._root_coro) != CORO_RUNNING`.
The coroutine-state conjunct always holds at the points where this is
consulted in the model (see fidelity notes), leaving the protection check. -/
def TaskM.isCancellable (t : TaskM) : Bool :=
  t.protection == 0

/-- Mirror of the `Task.result` property:
returns `_result` when `DONE`, raises `InvalidStateError(f"{self} was cancelled")`
when `CANCELLED`, and `InvalidStateError(f"Result of {self} is not ready")`
otherwise. -/
def TaskM.resultAcc (t : TaskM) : Except Exc (Option Val) :=
  if t.state = TaskState.done then Except.ok t.result
  else if t.state = TaskState.cancelled then
    Except.error (Exc.invalidStateError (t.str ++ " was cancelled"))
  else
    Except.error (Exc.invalidStateError ("Result of " ++ t.str ++ " is not ready"))

/-- The payload of the completion event is the task object itself
(`self._event.set(self)`); the model represents it by a fixed token. -/
def taskToken : Val := 0

/-- Fire `self._event.set(self)` on the task's completion event, returning
the updated task and the captured waiters to invoke.  The ghost counter is
bumped exactly when the event actually transitions to fired. -/
def fireCompletion (t : TaskM) : TaskM × List Waiter :=
  let r := Ev.set t.compEv taskToken
  if t.compEv.flag then ({ t with compEv := r.1 }, r.2)
  else ({ t with compEv := r.1, compFireCount := t.compFireCount + 1 }, r.2)

/-- The whole observable state: the single task, the heap of user events
(indexed by the numbers appearing in `Aw.waitEv`), and the ghost log of
external-callback invocations `(callback id, payload)`. -/
structure World where
  task : TaskM
  events : List Ev
  log : List (Nat × Option Val)

/-- Append a waiter to `events[eid]._step_coro_list` (a no-op for an index
outside the heap, which never occurs in well-formed scenarios). -/
def World.addWaiter (w : World) (eid : Nat) (wt : Waiter) : World :=
  match w.events.get? eid with
  | some e => { w with events := w.events.set eid { e with waiters := e.waiters ++ [wt] } }
  | none => w

/-- Result of `Task._wrapper`'s `except` clauses on an error `e` raised by
the wrapped computation:

* `except Exception as e:` — state becomes `CANCELLED`; if
  `_suppresses_exception` the error is stored in `_exception` and
  swallowed, otherwise it is re-raised;
* bare `except:` (in particular `GeneratorExit`) — state becomes
  `CANCELLED` and the error is always re-raised, never stored. -/
structure Dispatch where
  state : TaskState
  stored : Option Exc
  reraised : Option Exc

/-- The two `except` clauses of `Task._wrapper`, verbatim. -/
def wrapperDispatch (suppresses : Bool) (e : Exc) : Dispatch :=
  if e.isException then
    { state := TaskState.cancelled
      stored := if suppresses then some e else none
      reraised := if suppresses then none else some e }
  else
    { state := TaskState.cancelled, stored := none, reraised := some e }

/-- Internal continuations of the driver machinery:

* `step pay` — `Task._step_coro(*args)` with resume payload `pay`;
* `drain ws pay` — the invocation loop at the end of `Event.set`
  (`for step_coro in step_coro_list: step_coro(*args)`);
* `close` — `Task._actual_cancel`, i.e. `self._root_coro.close()`;
* `post` — the `else:` clause of `_step_coro` / `start`
  (`if self._cancel_called and self._is_cancellable: self._actual_cancel()`). -/
inductive Job where
  | step (pay : Option Val)
  | drain (ws : List Waiter) (pay : Option Val)
  | close
  | post

/-- Type of the driver-machinery interpreter, abstracted so that the
outcome handler below stays non-recursive. -/
abbrev ExecFn := Job → World → World × Option Exc

/-- Terminate the wrapper with a raised error `e` (the tail of
`Task._wrapper`): dispatch through the `except` clauses, set the new
protection depth left by the unwinding, close the coroutine, and run the
`finally: self._event.set(self)` clause, which drains the completion
event's waiters.  An exception raised while draining replaces the one
being propagated (Python's exception-during-`finally` semantics);
otherwise the dispatched re-raise (if any) propagates. -/
def finishRaised (ex : ExecFn) (e : Exc) (newDepth : Nat) (w : World) :
    World × Option Exc :=
  let d := wrapperDispatch w.task.suppresses e
  let t1 :=
    { w.task.setState d.state with
      exception := match d.stored with
        | some x => some x
        | none => w.task.exception
      protection := newDepth
      coro := CoroSt.closed }
  let fc := fireCompletion t1
  let r := ex (Job.drain fc.2 (some taskToken)) { w with task := fc.1 }
  (r.1, match r.2 with
    | some x => some x
    | none => d.reraised)

/-- Terminate the wrapper normally with value `v`: store `_result`, set
state `DONE`, close the coroutine, and run the `finally` clause (fire and
drain the completion event).  The `StopIteration` this produces at the
`send` site is caught by `_step_coro` / `start`, so no exception escapes
unless draining raised one. -/
def finishDone (ex : ExecFn) (v : Val) (newDepth : Nat) (w : World) :
    World × Option Exc :=
  let t1 :=
    { w.task.setState TaskState.done with
      result := some v
      protection := newDepth
      coro := CoroSt.closed }
  let fc := fireCompletion t1
  ex (Job.drain fc.2 (some taskToken)) { w with task := fc.1 }

/-- Handle the outcome of one `coro.send(...)` according to
`Task._step_coro` and `start`:

* on suspension, commit the new coroutine state and protection depth, then
  invoke the yielded registration request with the task's step callback
  (`coro.send(...)(self._step_coro)`), and — if no exception propagated —
  run the post-step cancellation check (the `else:` clause);
* on normal termination or a raised error, run the wrapper's tail. -/
def handleOutcomeF (ex : ExecFn) (r : RunRes) (w : World) : World × Option Exc :=
  match r with
  | .suspended reg k stack depth =>
    let w1 := { w with task := { w.task with protection := depth, coro := CoroSt.suspended k stack } }
    match reg with
    | .noop => ex Job.post w1
    | .appendWaiter eid => ex Job.post (w1.addWaiter eid Waiter.taskStep)
    | .immediate =>
      let r2 := ex (Job.step none) w1
      match r2.2 with
      | some e => (r2.1, some e)
      | none => ex Job.post r2.1
  | .finished v depth => finishDone ex v depth w
  | .raised e depth => finishRaised ex e depth w

/-- How `coroutine.close()` treats the exception propagating out of the
coroutine: `GeneratorExit` confirms the close and is swallowed; anything
else keeps propagating. -/
def swallowGE : Option Exc → Option Exc
  | some Exc.generatorExit => none
  | x => x

/-- The driver machinery.  Fuel bounds re-entrant resumption depth; at fuel
0 the world is returned unchanged (which never happens for the concrete
fuels used in the theorems below). -/
def exec : Nat → Job → World → World × Option Exc
  | 0, _, w => (w, none)
  | fuel + 1, job, w =>
    match job with
    | .post =>
      if w.task.cancelCalled && w.task.isCancellable then exec fuel Job.close w
      else (w, none)
    | .close =>
      match w.task.coro with
      | .closed => (w, none)
      | .created _ =>
        ({ w with task := { w.task with coro := CoroSt.closed } }, none)
      | .suspended _ stack =>
        let r := finishRaised (exec fuel) Exc.generatorExit
          (w.task.protection - stack.length) w
        (r.1, swallowGE r.2)
    | .drain [] _ => (w, none)
    | .drain (wt :: rest) pay =>
      match wt with
      | .extCb id => exec fuel (Job.drain rest pay) { w with log := w.log ++ [(id, pay)] }
      | .taskStep =>
        let r := exec fuel (Job.step pay) w
        match r.2 with
        | some e => (r.1, some e)
        | none => exec fuel (Job.drain rest pay) r.1
    | .step pay =>
      match w.task.coro with
      | .closed => exec fuel Job.post w
      | .created _ =>
        (w, some (Exc.typeError "cannot send non-None value to a just-started coroutine"))
      | .suspended k stack =>
        match runThread fuel (k pay) stack w.task.protection w.events with
        | none => (w, none)
        | some r => handleOutcomeF (exec fuel) r w

/-- Mirror of the module-level `start` applied to an existing `Task`
(`start` on a raw awaitable first builds a fresh task, i.e. `initWorld`
below, and then does exactly this):

* `ValueError(f"{task} was already started")` unless the state is still
  `CREATED`;
* otherwise `coro.send(None)(task._step_coro)` — the wrapper begins by
  setting `_state = STARTED` and advancing the wrapped computation — with
  `StopIteration` caught, and the post-step cancellation check in the
  `else:` clause.

Sending into an already-closed coroutine (possible when `cancel()` closed a
never-started task) raises `RuntimeError`, as CPython does. -/
def opStart (fuel : Nat) (w : World) : World × Option Exc :=
  if w.task.state ≠ TaskState.created then
    (w, some (Exc.valueError (w.task.str ++ " was already started")))
  else
    match w.task.coro with
    | .created body =>
      let t := w.task.setState TaskState.started
      match runThread fuel body [] t.protection w.events with
      | none => (w, none)
      | some r => handleOutcomeF (exec fuel) r { w with task := t }
    | .closed =>
      (w, some (Exc.runtimeError "cannot reuse already awaited coroutine"))
    | .suspended _ _ =>
      (w, some (Exc.runtimeError "unreachable: CREATED task with suspended coroutine"))

/-- The first line of `Task.cancel`: `self._cancel_called = True`. -/
def cancelRecorded (w : World) : World :=
  { w with task := { w.task with cancelCalled := true } }

/-- Mirror of `Task.cancel`: set `_cancel_called`, and if currently
cancellable run `_actual_cancel` (close the root coroutine). -/
def opCancel (fuel : Nat) (w : World) : World × Option Exc :=
  if (cancelRecorded w).task.isCancellable then exec fuel Job.close (cancelRecorded w)
  else (cancelRecorded w, none)

/-- Driver-level `events[eid].set(v)`: mark fired and store the payload,
swap out the waiter list, then invoke every captured waiter with the
payload, in registration order. -/
def opSetEvent (fuel : Nat) (eid : Nat) (v : Val) (w : World) : World × Option Exc :=
  match w.events.get? eid with
  | none => (w, none)
  | some e =>
    if e.flag then (w, none)
    else
      let w1 := { w with events := w.events.set eid { flag := true, value := some v, waiters := [] } }
      exec fuel (Job.drain e.waiters (some v)) w1

/-- Driver-level `events[eid].clear()`. -/
def opClearEvent (eid : Nat) (w : World) : World :=
  match w.events.get? eid with
  | none => w
  | some e => { w with events := w.events.set eid e.clear }

/-- Driver-level `events[eid].add_callback(cb)` for an external callback:
invoked immediately (logged) when the event has fired, queued otherwise. -/
def opAddCallback (eid : Nat) (cbId : Nat) (w : World) : World :=
  match w.events.get? eid with
  | none => w
  | some e =>
    match Ev.addCallback e (Waiter.extCb cbId) with
    | (e', some pay) => { w with events := w.events.set eid e', log := w.log ++ [(cbId, pay)] }
    | (e', none) => { w with events := w.events.set eid e' }

/-- Driver-level `task._event.add_callback(cb)` — how external code observes
completion. -/
def opAddCompCallback (cbId : Nat) (w : World) : World :=
  match Ev.addCallback w.task.compEv (Waiter.extCb cbId) with
  | (e', some pay) =>
    { w with task := { w.task with compEv := e' }, log := w.log ++ [(cbId, pay)] }
  | (e', none) => { w with task := { w.task with compEv := e' } }

/-- The operations the embedding driver can perform, in any order. -/
inductive Op where
  | start
  | cancel
  | setEv (eid : Nat) (v : Val)
  | clearEv (eid : Nat)
  | addCb (eid : Nat) (cbId : Nat)
  | addCompCb (cbId : Nat)

/-- Apply one driver operation; the driver catches (and here discards) any
exception the operation lets escape. -/
def applyOp (fuel : Nat) (op : Op) (w : World) : World :=
  match op with
  | .start => (opStart fuel w).1
  | .cancel => (opCancel fuel w).1
  | .setEv eid v => (opSetEvent fuel eid v w).1
  | .clearEv eid => opClearEvent eid w
  | .addCb eid cbId => opAddCallback eid cbId w
  | .addCompCb cbId => opAddCompCallback cbId w

/-- Apply a sequence of driver operations. -/
def applyOps (fuel : Nat) (ops : List Op) (w : World) : World :=
  ops.foldl (fun w op => applyOp fuel op w) w

/-- Mirror of `Task.__init__` on a valid awaitable `body`:
state `CREATED`, no result or exception, protection 0, a fresh completion
event, and the root coroutine `self._wrapper(awaitable)` not yet started. -/
def initTask (body : Aw) (sup : Bool) : TaskM :=
  { uid := 0
    name := ""
    state := TaskState.created
    result := none
    exception := none
    suppresses := sup
    cancelCalled := false
    protection := 0
    coro := CoroSt.created body
    compEv := freshEv
    compFireCount := 0
    stateTrace := [TaskState.created] }

/-- A fresh world: one newly constructed task and `n` fresh events. -/
def initWorld (body : Aw) (sup : Bool) (n : Nat) : World :=
  { task := initTask body sup
    events := List.replicate n freshEv
    log := [] }

/-- The permitted single assignments of the `_state` attribute: either no
change, or one forward edge of
`CREATED → STARTED → {DONE | CANCELLED}`.  In particular no backward edge,
no edge skipping `STARTED`, and no edge out of a terminal state. -/
def stepOkB (a b : TaskState) : Bool :=
  a == b ||
    (a == TaskState.created && b == TaskState.started) ||
    (a == TaskState.started && b == TaskState.done) ||
    (a == TaskState.started && b == TaskState.cancelled)

/-- A `_state` trace is forward-only when every adjacent pair of values is a
permitted assignment. -/
def goodTrace : List TaskState → Bool
  | [] => true
  | [_] => true
  | a :: b :: rest => stepOkB a b && goodTrace (b :: rest)

/-- The reachability invariant used to prove the state-machine claim:
the ghost trace is forward-only and ends at the current state, a
not-yet-started root coroutine implies state `CREATED`, and a suspended
root coroutine implies state `STARTED`. -/
structure Inv (w : World) : Prop where
  trace_good : goodTrace w.task.stateTrace = true
  trace_last : w.task.stateTrace.getLast? = some w.task.state
  coro_created : ∀ b, w.task.coro = CoroSt.created b → w.task.state = TaskState.created
  coro_suspended : ∀ k s, w.task.coro = CoroSt.suspended k s →
    w.task.state = TaskState.started

/-- Precondition of the outcome handler: it runs right after
`self._state = TaskState.STARTED` (first step) or while the task is
started (later steps), and it overwrites the coroutine field before
anything else observes it. -/
structure PreH (w : World) : Prop where
  trace_good : goodTrace w.task.stateTrace = true
  trace_last : w.task.stateTrace.getLast? = some w.task.state
  started : w.task.state = TaskState.started

/-- The protection-depth invariant: `_cancel_protection` counts exactly the
protection scopes that are currently open, i.e. the pending continuations
on the suspension stack; in particular it is 0 whenever the root coroutine
has not started or has terminated — every exit path (normal return, raised
error, forced close) restores the counter. -/
structure PInv (w : World) : Prop where
  prot_created : ∀ b, w.task.coro = CoroSt.created b → w.task.protection = 0
  prot_suspended : ∀ k s, w.task.coro = CoroSt.suspended k s →
    w.task.protection = s.length
  prot_closed : w.task.coro = CoroSt.closed → w.task.protection = 0

/-- Depth-consistency of an advance outcome: the protection depth it
reports matches its suspension stack (and is 0 on termination). -/
def RunResOk : RunRes → Prop
  | RunRes.finished _ d => d = 0
  | RunRes.raised _ d => d = 0
  | RunRes.suspended _ _ st d => d = st.length

/-- Scenario world for C3/C4: the task wrapping `return 42`, started once
(and hence `DONE`). -/
def c3World : World := (opStart 10 (initWorld (Aw.ret 42) false 0)).1

/-- Scenario world for C5: the task wrapping `sleep_forever()`, started and
now parked at the suspension point. -/
def c5World : World := (opStart 10 (initWorld (Aw.sleepForever (Aw.ret 0)) false 0)).1

/-- Scenario worlds for C6: a task that awaits event 0 inside a
`cancel_protection` scope has been started (`c6World1`), then cancelled
while protected (`c6World2`), then resumed by firing the event
(`c6World3`). -/
def c6World1 : World :=
  (opStart 30 (initWorld
    (Aw.protect (Aw.waitEv 0 (fun _ => Aw.ret 1)) (Aw.sleepForever (Aw.ret 2))) false 1)).1

/-- C6 scenario, after `cancel()` during the protection scope. -/
def c6World2 : World := (opCancel 30 c6World1).1

/-- C6 scenario, after the event fires and the protection scope exits. -/
def c6World3 : World := (opSetEvent 30 0 5 c6World2).1

/-- C6 error-path scenario: a task (with exception suppression) whose
protected body raises once resumed; started and parked inside the scope. -/
def c6ErrWorld1 : World :=
  (opStart 30 (initWorld
    (Aw.protect (Aw.waitEv 0 (fun _ => Aw.raiseE (Exc.userExc 7))) (Aw.ret 2)) true 1)).1

/-- C6 error-path scenario, after the event fires and the error unwinds the
scope. -/
def c6ErrWorld2 : World := (opSetEvent 30 0 5 c6ErrWorld1).1

/-- Scenario worlds for C8: two external callbacks registered on event 0
(callback 1 first), then `set(11)` and a second `set(22)`. -/
def c8World1 : World :=
  (opSetEvent 20 0 11 (opAddCallback 0 2 (opAddCallback 0 1 (initWorld (Aw.ret 0) false 1)))).1

/-- C8 scenario, after the second `set`. -/
def c8World2 : World := (opSetEvent 20 0 22 c8World1).1

/-- Scenario world for C9: event 0 fired with payload 5 before the task —
which awaits event 0 and returns the payload it receives — is started. -/
def c9FiredWorld : World :=
  (opSetEvent 20 0 5 (initWorld (Aw.waitEv 0 (fun p => Aw.ret (p.getD 99))) false 1)).1

/-- C9 scenario, after starting the task on the already-fired event. -/
def c9DoneWorld : World := (opStart 20 c9FiredWorld).1

/-- Scenario world for C10: the task wrapping `return 7`, started and done. -/
def c10World : World := (opStart 10 (initWorld (Aw.ret 7) false 0)).1

/-- Appending a permitted assignment to a forward-only trace keeps it
forward-only. -/
theorem goodTrace_snoc : ∀ {l : List TaskState} {s b : TaskState},
    goodTrace l = true → l.getLast? = some s → stepOkB s b = true →
    goodTrace (l ++ [b]) = true
  | [], s, b, _, hl, _ => by simp at hl
  | [a], s, b, _, hl, hok => by
    have ha : a = s := by simpa using hl
    subst ha
    simp [goodTrace, hok]
  | a :: c :: r, s, b, hg, hl, hok => by
    rw [List.getLast?_cons_cons] at hl
    have hg' : stepOkB a c = true ∧ goodTrace (c :: r) = true := by
      simpa [goodTrace, Bool.and_eq_true] using hg
    have ih := goodTrace_snoc (l := c :: r) hg'.2 hl hok
    simpa [goodTrace, Bool.and_eq_true] using ⟨hg'.1, ih⟩

/-- The completion event never touches the lifecycle fields. -/
theorem fireCompletion_fields (t : TaskM) :
    (fireCompletion t).1.state = t.state ∧
      (fireCompletion t).1.stateTrace = t.stateTrace ∧
      (fireCompletion t).1.coro = t.coro := by
  by_cases h : t.compEv.flag <;> simp [fireCompletion, Ev.set, h]

/-- Both `except` clauses of the wrapper set `_state = TaskState.CANCELLED`. -/
theorem wrapperDispatch_state (sup : Bool) (e : Exc) :
    (wrapperDispatch sup e).state = TaskState.cancelled := by
  unfold wrapperDispatch
  split <;> rfl

theorem Inv_update_log {w : World} {l : List (Nat × Option Val)} (h : Inv w) :
    Inv { w with log := l } :=
  ⟨h.trace_good, h.trace_last, h.coro_created, h.coro_suspended⟩

theorem Inv_update_events {w : World} {evs : List Ev} (h : Inv w) :
    Inv { w with events := evs } :=
  ⟨h.trace_good, h.trace_last, h.coro_created, h.coro_suspended⟩

theorem Inv_addWaiter {w : World} (eid : Nat) (wt : Waiter) (h : Inv w) :
    Inv (w.addWaiter eid wt) := by
  unfold World.addWaiter
  cases w.events.get? eid with
  | none => exact h
  | some e => exact (Inv_update_events h)

/-- The tail of the wrapper for a raised error preserves the invariant:
the trace gains the permitted `STARTED → CANCELLED` edge, the coroutine is
closed, and the drain of the completion waiters preserves it inductively. -/
theorem finishRaised_inv {ex : ExecFn}
    (hex : ∀ job w, Inv w → Inv (ex job w).1)
    (e : Exc) (depth : Nat) {w : World} (hw : PreH w) :
    Inv (finishRaised ex e depth w).1 := by
  unfold finishRaised
  apply hex
  have hfc := fireCompletion_fields
    { w.task.setState (wrapperDispatch w.task.suppresses e).state with
      exception := match (wrapperDispatch w.task.suppresses e).stored with
        | some x => some x
        | none => w.task.exception
      protection := depth
      coro := CoroSt.closed }
  constructor
  · rw [hfc.2.1]
    show goodTrace (w.task.stateTrace ++ [(wrapperDispatch w.task.suppresses e).state]) = true
    rw [wrapperDispatch_state]
    exact goodTrace_snoc hw.trace_good hw.trace_last (by rw [hw.started]; rfl)
  · rw [hfc.2.1, hfc.1]
    exact List.getLast?_concat _
  · intro b hb
    rw [hfc.2.2] at hb
    simp at hb
  · intro k s hb
    rw [hfc.2.2] at hb
    simp at hb

/-- The tail of the wrapper for normal completion preserves the invariant:
the trace gains the permitted `STARTED → DONE` edge. -/
theorem finishDone_inv {ex : ExecFn}
    (hex : ∀ job w, Inv w → Inv (ex job w).1)
    (v : Val) (depth : Nat) {w : World} (hw : PreH w) :
    Inv (finishDone ex v depth w).1 := by
  unfold finishDone
  apply hex
  have hfc := fireCompletion_fields
    { w.task.setState TaskState.done with
      result := some v
      protection := depth
      coro := CoroSt.closed }
  constructor
  · rw [hfc.2.1]
    exact goodTrace_snoc hw.trace_good hw.trace_last (by rw [hw.started]; rfl)
  · rw [hfc.2.1, hfc.1]
    exact List.getLast?_concat _
  · intro b hb
    rw [hfc.2.2] at hb
    simp at hb
  · intro k s hb
    rw [hfc.2.2] at hb
    simp at hb

/-- The outcome handler preserves the invariant, for any interpreter that
does. -/
theorem handleOutcomeF_inv {ex : ExecFn}
    (hex : ∀ job w, Inv w → Inv (ex job w).1)
    (r : RunRes) (w : World) (hw : PreH w) :
    Inv (handleOutcomeF ex r w).1 := by
  cases r with
  | suspended reg k stack depth =>
    have h1 : Inv { w with task :=
        { w.task with protection := depth, coro := CoroSt.suspended k stack } } := by
      constructor
      · exact hw.trace_good
      · exact hw.trace_last
      · intro b hb
        simp at hb
      · intro k' s' _
        exact hw.started
    cases reg with
    | noop => exact hex _ _ h1
    | appendWaiter eid => exact hex _ _ (Inv_addWaiter eid Waiter.taskStep h1)
    | immediate =>
      show Inv (match (ex (Job.step none) _).2 with
        | some e => ((ex (Job.step none) _).1, some e)
        | none => ex Job.post (ex (Job.step none) _).1).1
      split
      · exact hex _ _ h1
      · exact hex _ _ (hex _ _ h1)
  | finished v depth => exact finishDone_inv hex v depth hw
  | raised e depth => exact finishRaised_inv hex e depth hw

/-- The driver machinery preserves the invariant at every fuel. -/
theorem exec_inv : ∀ (fuel : Nat) (job : Job) (w : World), Inv w → Inv (exec fuel job w).1 := by
  intro fuel
  induction fuel with
  | zero =>
    intro job w h
    exact h
  | succ f ih =>
    intro job w h
    cases job with
    | post =>
      show Inv (if _ then exec f Job.close w else (w, none)).1
      split
      · exact ih _ _ h
      · exact h
    | close =>
      show Inv (match w.task.coro with
        | CoroSt.closed => (w, none)
        | CoroSt.created _ => ({ w with task := { w.task with coro := CoroSt.closed } }, none)
        | CoroSt.suspended _ stack =>
          ((finishRaised (exec f) Exc.generatorExit (w.task.protection - stack.length) w).1,
            swallowGE (finishRaised (exec f) Exc.generatorExit
              (w.task.protection - stack.length) w).2)).1
      cases hc : w.task.coro with
      | closed => exact h
      | created b =>
        refine ⟨h.trace_good, h.trace_last, ?_, ?_⟩
        · intro b' hb
          simp at hb
        · intro k' s' hb
          simp at hb
      | suspended k stack =>
        exact finishRaised_inv (fun job w hw => ih job w hw) Exc.generatorExit _
          ⟨h.trace_good, h.trace_last, h.coro_suspended k stack hc⟩
    | drain ws pay =>
      cases ws with
      | nil => exact h
      | cons wt rest =>
        cases wt with
        | extCb id => exact ih _ _ (Inv_update_log h)
        | taskStep =>
          show Inv (match (exec f (Job.step pay) w).2 with
            | some e => ((exec f (Job.step pay) w).1, some e)
            | none => exec f (Job.drain rest pay) (exec f (Job.step pay) w).1).1
          split
          · exact ih _ _ h
          · exact ih _ _ (ih _ _ h)
    | step pay =>
      show Inv (match w.task.coro with
        | CoroSt.closed => exec f Job.post w
        | CoroSt.created _ =>
          (w, some (Exc.typeError "cannot send non-None value to a just-started coroutine"))
        | CoroSt.suspended k stack =>
          match runThread f (k pay) stack w.task.protection w.events with
          | none => (w, none)
          | some r => handleOutcomeF (exec f) r w).1
      cases hc : w.task.coro with
      | closed => exact ih _ _ h
      | created b => exact h
      | suspended k stack =>
        show Inv (match runThread f (k pay) stack w.task.protection w.events with
          | none => (w, none)
          | some r => handleOutcomeF (exec f) r w).1
        cases runThread f (k pay) stack w.task.protection w.events with
        | none => exact h
        | some r =>
          exact handleOutcomeF_inv (fun job w hw => ih job w hw) r w
            ⟨h.trace_good, h.trace_last, h.coro_suspended k stack hc⟩

/-- `start` preserves the invariant: the only `_state` assignment it adds is
the wrapper's initial `CREATED → STARTED` edge. -/
theorem opStart_inv (fuel : Nat) {w : World} (h : Inv w) : Inv (opStart fuel w).1 := by
  unfold opStart
  split
  · exact h
  · rename_i hs
    have hcr : w.task.state = TaskState.created := not_not.mp hs
    cases hc : w.task.coro with
    | created body =>
      show Inv (match runThread fuel body []
          (w.task.setState TaskState.started).protection w.events with
        | none => (w, none)
        | some r =>
          handleOutcomeF (exec fuel) r { w with task := w.task.setState TaskState.started }).1
      cases runThread fuel body [] (w.task.setState TaskState.started).protection w.events with
      | none => exact h
      | some r =>
        refine handleOutcomeF_inv (fun job w hw => exec_inv fuel job w hw) r _ ⟨?_, ?_, rfl⟩
        · exact goodTrace_snoc h.trace_good h.trace_last (by rw [hcr]; rfl)
        · exact List.getLast?_concat _
    | closed => exact h
    | suspended k s => exact h

/-- `Task.cancel` preserves the invariant. -/
theorem opCancel_inv (fuel : Nat) {w : World} (h : Inv w) : Inv (opCancel fuel w).1 := by
  unfold opCancel
  have h1 : Inv (cancelRecorded w) :=
    ⟨h.trace_good, h.trace_last, h.coro_created, h.coro_suspended⟩
  split
  · exact exec_inv fuel _ _ h1
  · exact h1

/-- `Event.set` preserves the invariant. -/
theorem opSetEvent_inv (fuel eid : Nat) (v : Val) {w : World} (h : Inv w) :
    Inv (opSetEvent fuel eid v w).1 := by
  unfold opSetEvent
  cases w.events.get? eid with
  | none => exact h
  | some e =>
    show Inv (if e.flag then (w, none) else
      exec fuel (Job.drain e.waiters (some v))
        { w with events := w.events.set eid { flag := true, value := some v, waiters := [] } }).1
    split
    · exact h
    · exact exec_inv fuel _ _ (Inv_update_events h)

/-- `Event.clear` preserves the invariant. -/
theorem opClearEvent_inv (eid : Nat) {w : World} (h : Inv w) : Inv (opClearEvent eid w) := by
  unfold opClearEvent
  cases w.events.get? eid with
  | none => exact h
  | some e => exact (Inv_update_events h)

/-- `Event.add_callback` preserves the invariant. -/
theorem opAddCallback_inv (eid cbId : Nat) {w : World} (h : Inv w) :
    Inv (opAddCallback eid cbId w) := by
  unfold opAddCallback
  cases w.events.get? eid with
  | none => exact h
  | some e =>
    show Inv (match Ev.addCallback e (Waiter.extCb cbId) with
      | (e', some pay) =>
        { w with events := w.events.set eid e', log := w.log ++ [(cbId, pay)] }
      | (e', none) => { w with events := w.events.set eid e' })
    cases Ev.addCallback e (Waiter.extCb cbId) with
    | mk e' pay =>
      cases pay with
      | some p => exact ⟨h.trace_good, h.trace_last, h.coro_created, h.coro_suspended⟩
      | none => exact (Inv_update_events h)

/-- Registering a completion callback preserves the invariant. -/
theorem opAddCompCallback_inv (cbId : Nat) {w : World} (h : Inv w) :
    Inv (opAddCompCallback cbId w) := by
  unfold opAddCompCallback
  cases Ev.addCallback w.task.compEv (Waiter.extCb cbId) with
  | mk e' pay =>
    cases pay with
    | some p => exact ⟨h.trace_good, h.trace_last, h.coro_created, h.coro_suspended⟩
    | none => exact ⟨h.trace_good, h.trace_last, h.coro_created, h.coro_suspended⟩

/-- Every driver operation preserves the invariant. -/
theorem applyOp_inv (fuel : Nat) (op : Op) {w : World} (h : Inv w) :
    Inv (applyOp fuel op w) := by
  cases op with
  | start => exact opStart_inv fuel h
  | cancel => exact opCancel_inv fuel h
  | setEv eid v => exact opSetEvent_inv fuel eid v h
  | clearEv eid => exact opClearEvent_inv eid h
  | addCb eid cbId => exact opAddCallback_inv eid cbId h
  | addCompCb cbId => exact opAddCompCallback_inv cbId h

/-- Every sequence of driver operations preserves the invariant. -/
theorem applyOps_inv (fuel : Nat) (ops : List Op) {w : World} (h : Inv w) :
    Inv (applyOps fuel ops w) := by
  induction ops generalizing w with
  | nil => exact h
  | cons op rest ih => exact ih (applyOp_inv fuel op h)

/-- A freshly constructed task satisfies the invariant. -/
theorem initWorld_inv (body : Aw) (sup : Bool) (n : Nat) : Inv (initWorld body sup n) := by
  refine ⟨rfl, rfl, fun b _ => rfl, ?_⟩
  intro k s hb
  simp [initWorld, initTask] at hb

/-- The advance function is depth-consistent: called with the protection
depth equal to the number of open protection scopes, every outcome it
reports is depth-consistent — in particular every terminating outcome
(normal return or raised error) reports depth 0, because each scope exit,
including error unwinding, runs the `finally` that decrements the
counter. -/
theorem runThread_depth :
    ∀ (fuel : Nat) (cur : Aw) (stack : List Aw) (depth : Nat) (evs : List Ev),
      depth = stack.length →
      ∀ r, runThread fuel cur stack depth evs = some r → RunResOk r := by
  intro fuel
  induction fuel with
  | zero =>
    intro cur stack depth evs h r hr
    simp [runThread] at hr
  | succ f ih =>
    intro cur stack depth evs h r hr
    cases cur with
    | ret v =>
      cases stack with
      | nil =>
        simp [runThread] at hr
        subst hr
        simpa [RunResOk] using h
      | cons k rest =>
        refine ih k rest (depth - 1) evs ?_ r hr
        simp at h
        omega
    | raiseE e =>
      simp [runThread] at hr
      subst hr
      simp [RunResOk]
      omega
    | sleepForever k =>
      simp [runThread] at hr
      subst hr
      simpa [RunResOk] using h
    | waitEv eid k =>
      simp only [runThread] at hr
      split at hr <;> (injection hr with hr2; subst hr2; simpa [RunResOk] using h)
    | protect body k =>
      refine ih body (k :: stack) (depth + 1) evs ?_ r hr
      simp [h]

/-- The completion event never touches the protection counter. -/
theorem fireCompletion_prot (t : TaskM) : (fireCompletion t).1.protection = t.protection := by
  by_cases h : t.compEv.flag <;> simp [fireCompletion, Ev.set, h]

theorem PInv_update_log {w : World} {l : List (Nat × Option Val)} (h : PInv w) :
    PInv { w with log := l } :=
  ⟨h.prot_created, h.prot_suspended, h.prot_closed⟩

theorem PInv_update_events {w : World} {evs : List Ev} (h : PInv w) :
    PInv { w with events := evs } :=
  ⟨h.prot_created, h.prot_suspended, h.prot_closed⟩

theorem PInv_addWaiter {w : World} (eid : Nat) (wt : Waiter) (h : PInv w) :
    PInv (w.addWaiter eid wt) := by
  unfold World.addWaiter
  cases w.events.get? eid with
  | none => exact h
  | some e => exact (PInv_update_events h)

/-- The wrapper tail for a raised error ends with the counter restored. -/
theorem finishRaised_pinv {ex : ExecFn}
    (hex : ∀ job w, PInv w → PInv (ex job w).1)
    (e : Exc) (newDepth : Nat) (hd : newDepth = 0) {w : World} :
    PInv (finishRaised ex e newDepth w).1 := by
  unfold finishRaised
  apply hex
  have hfc := fireCompletion_fields
    { w.task.setState (wrapperDispatch w.task.suppresses e).state with
      exception := match (wrapperDispatch w.task.suppresses e).stored with
        | some x => some x
        | none => w.task.exception
      protection := newDepth
      coro := CoroSt.closed }
  have hfp := fireCompletion_prot
    { w.task.setState (wrapperDispatch w.task.suppresses e).state with
      exception := match (wrapperDispatch w.task.suppresses e).stored with
        | some x => some x
        | none => w.task.exception
      protection := newDepth
      coro := CoroSt.closed }
  refine ⟨?_, ?_, ?_⟩
  · intro b hb
    rw [hfc.2.2] at hb
    simp at hb
  · intro k s hb
    rw [hfc.2.2] at hb
    simp at hb
  · intro _
    rw [hfp]
    exact hd

/-- The wrapper tail for normal completion ends with the counter restored. -/
theorem finishDone_pinv {ex : ExecFn}
    (hex : ∀ job w, PInv w → PInv (ex job w).1)
    (v : Val) (newDepth : Nat) (hd : newDepth = 0) {w : World} :
    PInv (finishDone ex v newDepth w).1 := by
  unfold finishDone
  apply hex
  have hfc := fireCompletion_fields
    { w.task.setState TaskState.done with
      result := some v
      protection := newDepth
      coro := CoroSt.closed }
  have hfp := fireCompletion_prot
    { w.task.setState TaskState.done with
      result := some v
      protection := newDepth
      coro := CoroSt.closed }
  refine ⟨?_, ?_, ?_⟩
  · intro b hb
    rw [hfc.2.2] at hb
    simp at hb
  · intro k s hb
    rw [hfc.2.2] at hb
    simp at hb
  · intro _
    rw [hfp]
    exact hd

/-- The outcome handler preserves the protection-depth invariant for every
depth-consistent outcome. -/
theorem handleOutcomeF_pinv {ex : ExecFn}
    (hex : ∀ job w, PInv w → PInv (ex job w).1)
    (r : RunRes) (hr : RunResOk r) (w : World) :
    PInv (handleOutcomeF ex r w).1 := by
  cases r with
  | suspended reg k stack depth =>
    have h1 : PInv { w with task :=
        { w.task with protection := depth, coro := CoroSt.suspended k stack } } := by
      refine ⟨?_, ?_, ?_⟩
      · intro b hb
        simp at hb
      · intro k' s' hb
        injection hb with hk hs
        subst hs
        exact hr
      · intro hb
        simp at hb
    cases reg with
    | noop => exact hex _ _ h1
    | appendWaiter eid => exact hex _ _ (PInv_addWaiter eid Waiter.taskStep h1)
    | immediate =>
      show PInv (match (ex (Job.step none) _).2 with
        | some e => ((ex (Job.step none) _).1, some e)
        | none => ex Job.post (ex (Job.step none) _).1).1
      split
      · exact hex _ _ h1
      · exact hex _ _ (hex _ _ h1)
  | finished v depth => exact finishDone_pinv hex v depth hr
  | raised e depth => exact finishRaised_pinv hex e depth hr

/-- The driver machinery preserves the protection-depth invariant. -/
theorem exec_pinv : ∀ (fuel : Nat) (job : Job) (w : World), PInv w → PInv (exec fuel job w).1 := by
  intro fuel
  induction fuel with
  | zero =>
    intro job w h
    exact h
  | succ f ih =>
    intro job w h
    cases job with
    | post =>
      show PInv (if _ then exec f Job.close w else (w, none)).1
      split
      · exact ih _ _ h
      · exact h
    | close =>
      show PInv (match w.task.coro with
        | CoroSt.closed => (w, none)
        | CoroSt.created _ => ({ w with task := { w.task with coro := CoroSt.closed } }, none)
        | CoroSt.suspended _ stack =>
          ((finishRaised (exec f) Exc.generatorExit (w.task.protection - stack.length) w).1,
            swallowGE (finishRaised (exec f) Exc.generatorExit
              (w.task.protection - stack.length) w).2)).1
      cases hc : w.task.coro with
      | closed => exact h
      | created b =>
        refine ⟨?_, ?_, ?_⟩
        · intro b' hb
          simp at hb
        · intro k' s' hb
          simp at hb
        · intro _
          exact h.prot_created b hc
      | suspended k stack =>
        refine finishRaised_pinv (fun job w hw => ih job w hw) Exc.generatorExit _ ?_
        rw [h.prot_suspended k stack hc]
        omega
    | drain ws pay =>
      cases ws with
      | nil => exact h
      | cons wt rest =>
        cases wt with
        | extCb id => exact ih _ _ (PInv_update_log h)
        | taskStep =>
          show PInv (match (exec f (Job.step pay) w).2 with
            | some e => ((exec f (Job.step pay) w).1, some e)
            | none => exec f (Job.drain rest pay) (exec f (Job.step pay) w).1).1
          split
          · exact ih _ _ h
          · exact ih _ _ (ih _ _ h)
    | step pay =>
      show PInv (match w.task.coro with
        | CoroSt.closed => exec f Job.post w
        | CoroSt.created _ =>
          (w, some (Exc.typeError "cannot send non-None value to a just-started coroutine"))
        | CoroSt.suspended k stack =>
          match runThread f (k pay) stack w.task.protection w.events with
          | none => (w, none)
          | some r => handleOutcomeF (exec f) r w).1
      cases hc : w.task.coro with
      | closed => exact ih _ _ h
      | created b => exact h
      | suspended k stack =>
        show PInv (match runThread f (k pay) stack w.task.protection w.events with
          | none => (w, none)
          | some r => handleOutcomeF (exec f) r w).1
        cases hrt : runThread f (k pay) stack w.task.protection w.events with
        | none => exact h
        | some r =>
          exact handleOutcomeF_pinv (fun job w hw => ih job w hw) r
            (runThread_depth f (k pay) stack w.task.protection w.events
              (h.prot_suspended k stack hc) r hrt) w

/-- `start` preserves the protection-depth invariant. -/
theorem opStart_pinv (fuel : Nat) {w : World} (h : PInv w) : PInv (opStart fuel w).1 := by
  unfold opStart
  split
  · exact h
  · cases hc : w.task.coro with
    | created body =>
      show PInv (match runThread fuel body []
          (w.task.setState TaskState.started).protection w.events with
        | none => (w, none)
        | some r =>
          handleOutcomeF (exec fuel) r { w with task := w.task.setState TaskState.started }).1
      cases hrt : runThread fuel body [] (w.task.setState TaskState.started).protection w.events with
      | none => exact h
      | some r =>
        refine handleOutcomeF_pinv (fun job w hw => exec_pinv fuel job w hw) r ?_ _
        refine runThread_depth fuel body [] _ w.events ?_ r hrt
        simpa using h.prot_created body hc
    | closed => exact h
    | suspended k s => exact h

/-- `Task.cancel` preserves the protection-depth invariant. -/
theorem opCancel_pinv (fuel : Nat) {w : World} (h : PInv w) : PInv (opCancel fuel w).1 := by
  unfold opCancel
  have h1 : PInv (cancelRecorded w) :=
    ⟨h.prot_created, h.prot_suspended, h.prot_closed⟩
  split
  · exact exec_pinv fuel _ _ h1
  · exact h1

/-- `Event.set` preserves the protection-depth invariant. -/
theorem opSetEvent_pinv (fuel eid : Nat) (v : Val) {w : World} (h : PInv w) :
    PInv (opSetEvent fuel eid v w).1 := by
  unfold opSetEvent
  cases w.events.get? eid with
  | none => exact h
  | some e =>
    show PInv (if e.flag then (w, none) else
      exec fuel (Job.drain e.waiters (some v))
        { w with events := w.events.set eid { flag := true, value := some v, waiters := [] } }).1
    split
    · exact h
    · exact exec_pinv fuel _ _ (PInv_update_events h)

/-- `Event.clear` preserves the protection-depth invariant. -/
theorem opClearEvent_pinv (eid : Nat) {w : World} (h : PInv w) : PInv (opClearEvent eid w) := by
  unfold opClearEvent
  cases w.events.get? eid with
  | none => exact h
  | some e => exact (PInv_update_events h)

/-- `Event.add_callback` preserves the protection-depth invariant. -/
theorem opAddCallback_pinv (eid cbId : Nat) {w : World} (h : PInv w) :
    PInv (opAddCallback eid cbId w) := by
  unfold opAddCallback
  cases w.events.get? eid with
  | none => exact h
  | some e =>
    show PInv (match Ev.addCallback e (Waiter.extCb cbId) with
      | (e', some pay) =>
        { w with events := w.events.set eid e', log := w.log ++ [(cbId, pay)] }
      | (e', none) => { w with events := w.events.set eid e' })
    cases Ev.addCallback e (Waiter.extCb cbId) with
    | mk e' pay =>
      cases pay with
      | some p => exact ⟨h.prot_created, h.prot_suspended, h.prot_closed⟩
      | none => exact (PInv_update_events h)

/-- Registering a completion callback preserves the protection-depth
invariant. -/
theorem opAddCompCallback_pinv (cbId : Nat) {w : World} (h : PInv w) :
    PInv (opAddCompCallback cbId w) := by
  unfold opAddCompCallback
  cases Ev.addCallback w.task.compEv (Waiter.extCb cbId) with
  | mk e' pay =>
    cases pay with
    | some p => exact ⟨h.prot_created, h.prot_suspended, h.prot_closed⟩
    | none => exact ⟨h.prot_created, h.prot_suspended, h.prot_closed⟩

/-- Every driver operation preserves the protection-depth invariant. -/
theorem applyOp_pinv (fuel : Nat) (op : Op) {w : World} (h : PInv w) :
    PInv (applyOp fuel op w) := by
  cases op with
  | start => exact opStart_pinv fuel h
  | cancel => exact opCancel_pinv fuel h
  | setEv eid v => exact opSetEvent_pinv fuel eid v h
  | clearEv eid => exact opClearEvent_pinv eid h
  | addCb eid cbId => exact opAddCallback_pinv eid cbId h
  | addCompCb cbId => exact opAddCompCallback_pinv cbId h

/-- Every sequence of driver operations preserves the protection-depth
invariant. -/
theorem applyOps_pinv (fuel : Nat) (ops : List Op) {w : World} (h : PInv w) :
    PInv (applyOps fuel ops w) := by
  induction ops generalizing w with
  | nil => exact h
  | cons op rest ih => exact ih (applyOp_pinv fuel op h)

/-- A freshly constructed task satisfies the protection-depth invariant. -/
theorem initWorld_pinv (body : Aw) (sup : Bool) (n : Nat) : PInv (initWorld body sup n) := by
  refine ⟨fun b _ => rfl, ?_, ?_⟩
  · intro k s hb
    simp [initWorld, initTask] at hb
  · intro hb
    simp [initWorld, initTask] at hb

/-- `Task.cancel` on an already-closed root coroutine: `coroutine.close()`
on a closed coroutine is a no-op. -/
theorem exec_close_closed (fuel : Nat) {w : World} (hc : w.task.coro = CoroSt.closed) :
    exec fuel Job.close w = (w, none) := by
  cases fuel with
  | zero => rfl
  | succ f =>
    show (match w.task.coro with
      | CoroSt.closed => (w, none)
      | CoroSt.created _ => ({ w with task := { w.task with coro := CoroSt.closed } }, none)
      | CoroSt.suspended _ stack =>
        ((finishRaised (exec f) Exc.generatorExit (w.task.protection - stack.length) w).1,
          swallowGE (finishRaised (exec f) Exc.generatorExit
            (w.task.protection - stack.length) w).2)) = (w, none)
    rw [hc]


/-- C1: for every task, `_state` only ever moves forward along
`Created → Started → {Done | Cancelled}` under any sequence of driver
operations (start, cancel, and the event operations that resume the task,
on a task wrapping any computation, with or without exception
suppression): the ghost trace of every value the `_state` attribute takes
is forward-only — every adjacent pair of distinct values is one of the
edges `Created → Started`, `Started → Done`, `Started → Cancelled`, so the
state never moves backward, never skips `Started`, and never leaves a
terminal state. -/
theorem C1_state_moves_forward_only (body : Aw) (sup : Bool) (n : Nat) (fuel : Nat)
    (ops : List Op) :
    goodTrace (applyOps fuel ops (initWorld body sup n)).task.stateTrace = true :=
  (applyOps_inv fuel ops (initWorld_inv body sup n)).trace_good

/-- C2: the claim says that cancelling a `Created` task with
`protection_depth == 0` force-closes the computation *and* drives the task
to `Cancelled`, firing its completion event.  The code force-closes but
does not reach a terminal state: `Task.cancel` runs
`self._root_coro.close()`, and closing a `CORO_CREATED` coroutine marks it
closed without ever executing `Task._wrapper`, so `_state` stays `CREATED`
and the completion event never fires; a subsequent `start` then raises
`RuntimeError` from `coro.send(None)`.  This theorem evaluates the model
at the failing input (a fresh task wrapping `sleep_forever()`, cancelled
before being started). -/
theorem C2_cancel_created_task_never_terminal :
    (opCancel 10 (initWorld (Aw.sleepForever (Aw.ret 0)) false 0)).1.task.state =
        TaskState.created ∧
      (opCancel 10 (initWorld (Aw.sleepForever (Aw.ret 0)) false 0)).1.task.compFireCount = 0 ∧
      (opCancel 10 (initWorld (Aw.sleepForever (Aw.ret 0)) false 0)).1.task.compEv.flag =
        false ∧
      (opCancel 10 (initWorld (Aw.sleepForever (Aw.ret 0)) false 0)).1.task.coro.isClosed =
        true ∧
      (opCancel 10 (initWorld (Aw.sleepForever (Aw.ret 0)) false 0)).1.task.cancelCalled =
        true ∧
      (opStart 10 (opCancel 10 (initWorld (Aw.sleepForever (Aw.ret 0)) false 0)).1).2 =
        some (Exc.runtimeError "cannot reuse already awaited coroutine") :=
  ⟨rfl, rfl, rfl, rfl, rfl, rfl⟩

/-- C3 counterexample: starting an already-started (here: already `DONE`)
task fails with `ValueError` — the same exception class the source uses for
invalid arguments — and not with `InvalidStateError`, the class the spec
calls `InvalidState` (and which `Task.result` does use). -/
theorem C3_counterexample_second_start_not_invalid_state :
    c3World.task.state = TaskState.done ∧
      (opStart 10 c3World).2 =
        some (Exc.valueError "Task(uid=0, name=) was already started") ∧
      (opStart 10 c3World).2.any Exc.isInvalidState = false :=
  ⟨rfl, rfl, rfl⟩

/-- C3 (amended): for every Task whose state is not `Created`, `start`
fails — but with `ValueError` (`f"{task} was already started"`), not with
`InvalidStateError`; in particular the second `start` of the same Task
object fails with that `ValueError`. -/
theorem C3_start_non_created_fails_with_valueerror (fuel : Nat) (w : World)
    (h : w.task.state ≠ TaskState.created) :
    opStart fuel w = (w, some (Exc.valueError (w.task.str ++ " was already started"))) := by
  unfold opStart
  simp [h]

theorem C3_start_non_created_fails_with_valueerror_witness :
    opStart 10 c3World =
      (c3World, some (Exc.valueError (c3World.task.str ++ " was already started"))) :=
  C3_start_non_created_fails_with_valueerror 10 c3World (by decide)

/-- C4: the `result` accessor returns the stored completion value exactly
when the state is `Done`; it fails with `InvalidStateError` whose message
says the task was cancelled when the state is `Cancelled`, and with an
`InvalidStateError` carrying a distinct not-ready message when the state is
`Created` or `Started` (the two messages differ for every task). -/
theorem C4_result_accessor_by_state (t : TaskM) :
    (t.state = TaskState.done → t.resultAcc = Except.ok t.result) ∧
      ((∃ v, t.resultAcc = Except.ok v) ↔ t.state = TaskState.done) ∧
      (t.state = TaskState.cancelled →
        t.resultAcc = Except.error (Exc.invalidStateError (t.str ++ " was cancelled"))) ∧
      ((t.state = TaskState.created ∨ t.state = TaskState.started) →
        t.resultAcc =
          Except.error (Exc.invalidStateError ("Result of " ++ t.str ++ " is not ready"))) ∧
      (t.str ++ " was cancelled") ≠ ("Result of " ++ t.str ++ " is not ready") := by
  refine ⟨?_, ⟨?_, ?_⟩, ?_, ?_, ?_⟩
  · intro h
    simp [TaskM.resultAcc, h]
  · rintro ⟨v, hv⟩
    cases hs : t.state with
    | done => rfl
    | created => simp [TaskM.resultAcc, hs] at hv
    | started => simp [TaskM.resultAcc, hs] at hv
    | cancelled => simp [TaskM.resultAcc, hs] at hv
  · intro h
    exact ⟨t.result, by simp [TaskM.resultAcc, h]⟩
  · intro h
    simp [TaskM.resultAcc, h]
  · rintro (h | h) <;> simp [TaskM.resultAcc, h]
  · intro h
    have hl := congrArg String.length h
    have h1 : (" was cancelled" : String).length = 14 := rfl
    have h2 : ("Result of " : String).length = 10 := rfl
    have h3 : (" is not ready" : String).length = 13 := rfl
    simp [String.length_append, h1, h2, h3] at hl
    omega

theorem C4_result_accessor_by_state_witness :
    c3World.task.state = TaskState.done ∧
      c3World.task.resultAcc = Except.ok c3World.task.result ∧
      c3World.task.result = some 42 :=
  ⟨rfl, (C4_result_accessor_by_state c3World.task).1 rfl, rfl⟩

/-- C5: a started task wrapping `sleep_forever()`, with no protection in
effect, is closed synchronously by `cancel()`: at the moment `cancel`
returns (with no exception escaping), the state is already `Cancelled`, the
root coroutine is closed, and the completion event has fired exactly once. -/
theorem C5_cancel_sleeping_task_synchronous :
    c5World.task.state = TaskState.started ∧
      c5World.task.protection = 0 ∧
      (opCancel 10 c5World).2 = none ∧
      (opCancel 10 c5World).1.task.state = TaskState.cancelled ∧
      (opCancel 10 c5World).1.task.coro.isClosed = true ∧
      (opCancel 10 c5World).1.task.compFireCount = 1 :=
  ⟨rfl, rfl, rfl, rfl, rfl, rfl⟩

/-- C6: while `protection_depth > 0`, `cancel()` only records the request
(the whole world changes only by `_cancel_called = True`, for every world
and fuel); in the scenario where the task sits inside a protection scope
awaiting an event, `cancel()` leaves it started and its coroutine open,
and the forced closure lands exactly when the scope has exited and the
task next becomes idle with depth back at 0 (here: during the `set` that
resumes it, which ends with the task `Cancelled`, depth 0, completion event
fired once).  On the error exit path the scope's `finally` also restores
the depth to 0; in full generality, for every task, computation and
driver-operation sequence, whenever the root coroutine has terminated —
through any exit path: normal return, raised error, or forced close —
`protection_depth` is back at 0, i.e. every acquire was matched by a
release. -/
theorem C6_protection_defers_cancellation :
    (∀ (fuel : Nat) (w : World), w.task.protection ≠ 0 →
        opCancel fuel w = (cancelRecorded w, none)) ∧
      (c6World1.task.protection = 1 ∧
        c6World1.task.state = TaskState.started ∧
        c6World2.task.state = TaskState.started ∧
        c6World2.task.coro.isClosed = false ∧
        c6World2.task.cancelCalled = true ∧
        c6World2.task.compFireCount = 0 ∧
        c6World3.task.state = TaskState.cancelled ∧
        c6World3.task.protection = 0 ∧
        c6World3.task.compFireCount = 1) ∧
      (c6ErrWorld1.task.protection = 1 ∧
        c6ErrWorld2.task.protection = 0 ∧
        c6ErrWorld2.task.state = TaskState.cancelled) ∧
      (∀ (body : Aw) (sup : Bool) (n fuel : Nat) (ops : List Op),
        (applyOps fuel ops (initWorld body sup n)).task.coro.isClosed = true →
        (applyOps fuel ops (initWorld body sup n)).task.protection = 0) := by
  refine ⟨?_, ⟨rfl, rfl, rfl, rfl, rfl, rfl, rfl, rfl, rfl⟩, ⟨rfl, rfl, rfl⟩, ?_⟩
  · intro fuel w h
    unfold opCancel
    have hcc : (cancelRecorded w).task.isCancellable = false := by
      simp [cancelRecorded, TaskM.isCancellable, beq_eq_false_iff_ne, h]
    simp [hcc]
  · intro body sup n fuel ops hcl
    have hp := applyOps_pinv fuel ops (initWorld_pinv body sup n)
    cases hco : (applyOps fuel ops (initWorld body sup n)).task.coro with
    | closed => exact hp.prot_closed hco
    | created b =>
      rw [hco] at hcl
      simp [CoroSt.isClosed] at hcl
    | suspended k s =>
      rw [hco] at hcl
      simp [CoroSt.isClosed] at hcl

theorem C6_protection_defers_cancellation_witness :
    opCancel 10 c6World1 = (cancelRecorded c6World1, none) :=
  C6_protection_defers_cancellation.1 10 c6World1 (by decide)

/-- C7: the forced-termination signal (`GeneratorExit`) is dispatched by
the wrapper's bare `except:` clause: for either value of
`_suppresses_exception` it is never stored and always re-raised while the
state still becomes `Cancelled`; anything that *is* stored in `_exception`
is an ordinary `Exception` under suppression; and in the running scenario
(started `sleep_forever()` task force-closed by `cancel()`, suppression on
or off) `_exception` stays `None`, the state is `Cancelled` and the
completion event fired. -/
theorem C7_forced_close_signal_never_captured (sup : Bool) :
    ((wrapperDispatch sup Exc.generatorExit).state = TaskState.cancelled ∧
      (wrapperDispatch sup Exc.generatorExit).stored = none ∧
      (wrapperDispatch sup Exc.generatorExit).reraised = some Exc.generatorExit) ∧
      (∀ (e : Exc) (x : Exc), (wrapperDispatch sup e).stored = some x →
        sup = true ∧ e.isException = true ∧ x = e) ∧
      ((opCancel 10 (opStart 10 (initWorld (Aw.sleepForever (Aw.ret 0)) sup 0)).1).1.task.state =
          TaskState.cancelled ∧
        (opCancel 10
            (opStart 10 (initWorld (Aw.sleepForever (Aw.ret 0)) sup 0)).1).1.task.exception =
          none ∧
        (opCancel 10
            (opStart 10
              (initWorld (Aw.sleepForever (Aw.ret 0)) sup 0)).1).1.task.compFireCount =
          1) := by
  cases sup with
  | false =>
    refine ⟨⟨rfl, rfl, rfl⟩, ?_, rfl, rfl, rfl⟩
    intro e x hx
    cases he : e.isException <;> simp [wrapperDispatch, he] at hx
  | true =>
    refine ⟨⟨rfl, rfl, rfl⟩, ?_, rfl, rfl, rfl⟩
    intro e x hx
    cases he : e.isException <;> simp [wrapperDispatch, he] at hx
    exact ⟨rfl, rfl, hx.symm⟩

theorem C7_forced_close_signal_never_captured_witness :
    true = true ∧ (Exc.userExc 3).isException = true ∧ Exc.userExc 3 = Exc.userExc 3 :=
  (C7_forced_close_signal_never_captured true).2.1 (Exc.userExc 3) (Exc.userExc 3) rfl

/-- C8: `Event.set` is idempotent within one epoch: on a not-yet-fired
event, the first `set(a)` marks it fired with payload `a` and captures
exactly the registered waiters (in order, the list having been swapped
out), and a second `set(b)` changes nothing and captures no one; in the
concrete run with two external callbacks the log shows each waiter invoked
exactly once, with the first call's payload, in registration order. -/
theorem C8_event_set_idempotent (e : Ev) (a b : Val) (h : e.flag = false) :
    (Ev.set e a).1.flag = true ∧
      (Ev.set e a).1.value = some a ∧
      (Ev.set e a).2 = e.waiters ∧
      (Ev.set e a).1.waiters = [] ∧
      Ev.set (Ev.set e a).1 b = ((Ev.set e a).1, []) ∧
      c8World2.log = [(1, some 11), (2, some 11)] ∧
      (c8World2.events.getD 0 freshEv).value = some 11 ∧
      (c8World2.events.getD 0 freshEv).flag = true := by
  refine ⟨?_, ?_, ?_, ?_, ?_, rfl, rfl, rfl⟩ <;> simp [Ev.set, h]

theorem C8_event_set_idempotent_witness :
    (Ev.set freshEv 4).1.value = some 4 ∧
      Ev.set (Ev.set freshEv 4).1 9 = ((Ev.set freshEv 4).1, []) :=
  ⟨(C8_event_set_idempotent freshEv 4 9 rfl).2.1,
   (C8_event_set_idempotent freshEv 4 9 rfl).2.2.2.2.1⟩

/-- C9: a waiter registered on an already-fired event receives the stored
payload immediately, without another `set`: `add_callback` on a fired
event invokes the callback at once with the stored payload (for every
fired event and every callback), and a computation that `wait`s on the
fired event is resumed immediately with the payload — in the scenario the
task started after `set(5)` ends the very same `start` call `Done` with
result 5, and a driver callback added after firing is logged at once with
payload 5. -/
theorem C9_fired_event_delivers_payload (e : Ev) (cb : Waiter) (h : e.flag = true) :
    Ev.addCallback e cb = (e, some e.value) ∧
      c9DoneWorld.task.state = TaskState.done ∧
      c9DoneWorld.task.result = some 5 ∧
      (opAddCallback 0 7 c9FiredWorld).log = [(7, some 5)] := by
  refine ⟨?_, rfl, rfl, rfl⟩
  simp [Ev.addCallback, h]

theorem C9_fired_event_delivers_payload_witness :
    Ev.addCallback { flag := true, value := some 5, waiters := [] } (Waiter.extCb 1) =
      ({ flag := true, value := some 5, waiters := [] }, some (some 5)) :=
  (C9_fired_event_delivers_payload { flag := true, value := some 5, waiters := [] }
    (Waiter.extCb 1) rfl).1

/-- C10: `cancel()` on a task already `Done` is a no-op on observable
state: the whole operation is exactly `_cancel_called = True` (closing a
closed coroutine does nothing), so the state is still `Done`, the stored
result is unchanged and still retrievable through the `result` accessor,
and the completion event does not fire a second time. -/
theorem C10_cancel_done_task_noop (fuel : Nat) (w : World)
    (hc : w.task.coro = CoroSt.closed) (hs : w.task.state = TaskState.done) :
    opCancel fuel w = (cancelRecorded w, none) ∧
      (opCancel fuel w).1.task.state = TaskState.done ∧
      (opCancel fuel w).1.task.result = w.task.result ∧
      (opCancel fuel w).1.task.resultAcc = Except.ok w.task.result ∧
      (opCancel fuel w).1.task.compFireCount = w.task.compFireCount ∧
      (opCancel fuel w).1.task.compEv.flag = w.task.compEv.flag := by
  have hcr : (cancelRecorded w).task.coro = CoroSt.closed := hc
  have heq : opCancel fuel w = (cancelRecorded w, none) := by
    unfold opCancel
    split
    · exact exec_close_closed fuel hcr
    · rfl
  refine ⟨heq, ?_, ?_, ?_, ?_, ?_⟩ <;> rw [heq]
  · exact hs
  · rfl
  · simp [TaskM.resultAcc, cancelRecorded, hs]
  · rfl
  · rfl

theorem C10_cancel_done_task_noop_witness :
    (opCancel 10 c10World).1.task.state = TaskState.done ∧
      (opCancel 10 c10World).1.task.result = c10World.task.result ∧
      (opCancel 10 c10World).1.task.compFireCount = c10World.task.compFireCount :=
  ⟨(C10_cancel_done_task_noop 10 c10World rfl rfl).2.1,
   (C10_cancel_done_task_noop 10 c10World rfl rfl).2.2.1,
   (C10_cancel_done_task_noop 10 c10World rfl rfl).2.2.2.2.1⟩

end Asyncgui
